import Mathlib

set_option maxRecDepth 100000

/-!
Shallow embedding of the ucsrename program: a Go CLI that renames audio
files following the Universal Category System (UCS) filename convention.

The embedding covers:
- the ucs package (README-embedded source): Category, Filename, Render,
  and Categories() over the parsed CSV records;
- the renamer package: promptField / promptFields / buildFilename /
  confirm, with stdin modelled as a queue of input lines, stdout/stderr
  as a transcript of events, and the environment as a total function
  from variable names to values (Go os.Getenv returns "" when unset);
- main.go: flag parsing for the single boolean flag -y (modelling Go
  flag.FlagSet with ContinueOnError), run, and the exit-code mapping.

Machine-level caveats, noted where relevant: Go unicode.IsSpace and
strings.ToLower are modelled on the Latin-1 / ASCII range, which is
exact for every character these claims exercise.
-/

/-- Models Go unicode.IsSpace on the Latin-1 range: space, tab, newline,
vertical tab, form feed, carriage return, next line (U+0085) and
non-breaking space (U+00A0). -/
def goIsSpace (c : Char) : Bool :=
  c == ' ' || c == '\t' || c == '\n' || c == Char.ofNat 0x0b ||
    c == Char.ofNat 0x0c || c == '\r' || c == Char.ofNat 0x85 || c == Char.ofNat 0xa0

/-- Models Go strings.TrimSpace: drop leading and trailing whitespace. -/
def trimSpace (s : String) : String :=
  String.mk (((s.data.dropWhile goIsSpace).reverse.dropWhile goIsSpace).reverse)

/-- Models Go strings.Join: concatenate the list elements with the
separator between consecutive elements. -/
def joinWith (sep : String) : List String → String
  | [] => ""
  | [s] => s
  | s :: rest => s ++ sep ++ joinWith sep rest

/-- Accumulator for the model of Go strings.Fields: maximal runs of
non-whitespace characters, in order. -/
def fieldsAux : List Char → List Char → List (List Char)
  | cur, [] => if cur.isEmpty then [] else [cur.reverse]
  | cur, c :: rest =>
    if goIsSpace c then
      if cur.isEmpty then fieldsAux [] rest else cur.reverse :: fieldsAux [] rest
    else fieldsAux (c :: cur) rest

/-- Models Go strings.Fields: split around runs of whitespace. -/
def goFields (s : String) : List String :=
  (fieldsAux [] s.data).map String.mk

/-- Accumulator for splitting at every occurrence of a separator
character, keeping empty pieces (Go strings.Split with a one-character
separator). -/
def splitOnCharAux (sep : Char) : List Char → List Char → List (List Char)
  | cur, [] => [cur.reverse]
  | cur, c :: rest =>
    if c == sep then cur.reverse :: splitOnCharAux sep [] rest
    else splitOnCharAux sep (c :: cur) rest

/-- Models Go strings.Split with a one-character separator. -/
def splitOnChar (sep : Char) (s : String) : List String :=
  (splitOnCharAux sep [] s.data).map String.mk

/-- Number of underscore-delimited segments of a string: the length of
the list produced by splitting at every underscore. -/
def numSegments (s : String) : Nat :=
  (splitOnChar '_' s).length

/-- Models Go strings.TrimRight with cutset ":": drop trailing colons. -/
def trimRightColon (s : String) : String :=
  String.mk ((s.data.reverse.dropWhile (fun c => c == ':')).reverse)

/-- Models Go strings.ToLower restricted to ASCII case mapping, which
agrees with the full Unicode mapping on every string compared against
the ASCII answers of the confirm prompt. -/
def asciiLowerChar (c : Char) : Char :=
  if 'A' ≤ c ∧ c ≤ 'Z' then Char.ofNat (c.toNat + 32) else c

/-- Lowercase an entire string, character by character. -/
def goToLower (s : String) : String :=
  String.mk (s.data.map asciiLowerChar)

/-- Models ucs.Category (package ucs): one row of the UCS catalog. -/
structure Category where
  Category : String
  SubCategory : String
  CatID : String
  CatShort : String
  Synonyms : String
deriving DecidableEq

/-- Models ucs.Filename (package ucs): the five fields of a UCS
filename. -/
structure Filename where
  CatID : String
  FXName : String
  CreatorID : String
  SourceID : String
  UserData : String
deriving DecidableEq

/-- Models ucs.Filename.Render: join CatID, FXName, CreatorID, SourceID
with underscores, append UserData only when non-empty, then append the
extension verbatim. -/
def Filename.Render (f : Filename) (ext : String) : String :=
  let segs : List String := [f.CatID, f.FXName, f.CreatorID, f.SourceID]
  let segs := if f.UserData ≠ "" then segs ++ [f.UserData] else segs
  joinWith ("_") segs ++ ext

/-- Builds a Category from one 6-field CSV record, by position:
0=Category, 1=SubCategory, 2=CatID, 3=ShortCode, 4 unused, 5=Synonyms. -/
def mkCategory (r : List String) : Category :=
  ⟨r.getD 0 (""), r.getD 1 (""), r.getD 2 (""), r.getD 3 (""), r.getD 5 ("")⟩

/-- Models the record-processing loop of ucs.Categories: keep only the
records with exactly 6 fields, build a Category from each, and sort
ascending by CatID (Go slices.SortFunc with a comparator that returns -1
exactly when the left CatID is smaller; ties between equal CatIDs are
left in an unspecified order by Go, and mergeSort picks one such
order). -/
def categoriesFromRecords (records : List (List String)) : List Category :=
  (records.filterMap fun r => if r.length = 6 then some (mkCategory r) else none).mergeSort
    (fun a b => decide (a.CatID ≤ b.CatID))

/-- Error produced by the CSV reader model. -/
inductive CsvError where
  | fieldCount
deriving DecidableEq

/-- Models Go encoding/csv Reader.ReadAll for quote-free rows, as used
by ucs.Categories: blank lines are skipped, each remaining line splits
on commas, and with the default FieldsPerRecord = 0 every record must
have the same number of fields as the first record, otherwise reading
fails with ErrFieldCount. -/
def csvReadAll (lines : List String) : Except CsvError (List (List String)) :=
  let nonBlank := lines.filter fun l => l != ""
  match nonBlank with
  | [] => Except.ok []
  | first :: _ =>
    let n := (splitOnChar ',' first).length
    let records := nonBlank.map (splitOnChar ',')
    if records.all fun r => r.length == n then Except.ok records
    else Except.error CsvError.fieldCount

/-- Models ucs.Categories applied to a catalog data file given as its
list of lines: CSV read, then the 6-field filter, build and sort. -/
def ucsCategoriesOfLines (lines : List String) : Except CsvError (List Category) :=
  match csvReadAll lines with
  | Except.error e => Except.error e
  | Except.ok records => Except.ok (categoriesFromRecords records)

/-- Helper: the length of the split list is one more than the number of
separator occurrences. -/
theorem splitOnCharAux_length (sep : Char) (l : List Char) :
    ∀ cur, (splitOnCharAux sep cur l).length = l.count sep + 1 := by
  induction l with
  | nil => intro cur; simp [splitOnCharAux]
  | cons c rest ih =>
    intro cur
    by_cases h : c == sep
    · simp [splitOnCharAux, h, ih, List.count_cons]
    · simp [splitOnCharAux, h, ih, List.count_cons]

/-- Helper: segment count equals underscore count plus one. -/
theorem numSegments_eq_count (s : String) :
    numSegments s = s.data.count '_' + 1 := by
  simpa [numSegments, splitOnChar] using splitOnCharAux_length '_' s.data []

/-- Helper: the rendered filename, written as one flat concatenation. -/
theorem render_eq (f : Filename) (ext : String) :
    f.Render ext =
      f.CatID ++ "_" ++ f.FXName ++ "_" ++ f.CreatorID ++ "_" ++ f.SourceID ++
        (if f.UserData = "" then "" else "_" ++ f.UserData) ++ ext := by
  by_cases h : f.UserData = "" <;>
    simp [Filename.Render, joinWith, h, String.append_assoc]

/-- C1: Render joins CatID, FXName, CreatorID, SourceID with the
underscore delimiter in that fixed order, appends UserData with a
preceding underscore only when it is non-empty (an empty UserData adds
no delimiter and no empty segment), and appends the extension verbatim
with no delimiter before it; consequently, when no field contains an
underscore, the body before the extension has exactly 5
underscore-joined segments when UserData is non-empty and exactly 4
when it is empty. -/
theorem render_layout_c1 (f : Filename) (ext : String) :
    f.Render ext =
      f.CatID ++ "_" ++ f.FXName ++ "_" ++ f.CreatorID ++ "_" ++ f.SourceID ++
        (if f.UserData = "" then "" else "_" ++ f.UserData) ++ ext ∧
    f.Render ext = f.Render ("") ++ ext ∧
    (('_' ∉ f.CatID.data ∧ '_' ∉ f.FXName.data ∧ '_' ∉ f.CreatorID.data ∧
        '_' ∉ f.SourceID.data ∧ '_' ∉ f.UserData.data) →
      numSegments (f.Render ("")) = if f.UserData = "" then 4 else 5) := by
  refine ⟨render_eq f ext, ?_, ?_⟩
  · rw [render_eq f ext, render_eq f ("")]
    simp [String.append_assoc]
  · rintro ⟨h1, h2, h3, h4, h5⟩
    have e1 := List.count_eq_zero_of_not_mem h1
    have e2 := List.count_eq_zero_of_not_mem h2
    have e3 := List.count_eq_zero_of_not_mem h3
    have e4 := List.count_eq_zero_of_not_mem h4
    have e5 := List.count_eq_zero_of_not_mem h5
    have hu : ("_" : String).data = ['_'] := rfl
    rw [numSegments_eq_count, render_eq f ("")]
    by_cases h : f.UserData = "" <;>
      simp [h, hu, List.count_append, List.count_cons, e1, e2, e3, e4, e5]

/-- Witness for C1 at the README scenario values: no field contains an
underscore, UserData is non-empty, and the body has 5 segments. -/
theorem render_layout_c1_witness :
    numSegments ((Filename.mk ("AMBPark") ("Central Park Bethesda Fountain")
        ("Buddin") ("Phonogrifter") ("Clippy")).Render ("")) = 5 := by
  have h := (render_layout_c1 (Filename.mk ("AMBPark") ("Central Park Bethesda Fountain")
    ("Buddin") ("Phonogrifter") ("Clippy")) (".wav")).2.2 (by decide)
  simpa using h

/-- Models the renamer requirement tag (package renamer). -/
inductive Requirement where
  | required
  | optional
deriving DecidableEq

/-- One event written to stdout or stderr by the renamer: the field
prompt label, the two validation error lines, the selected-CatID line,
and the rename confirmation question. -/
inductive OutEvent where
  | prompt (fieldName : String)
  | errRequired (fieldName : String)
  | errDelimiter
  | catIDLine (catID : String)
  | confirmPrompt (question : String)
deriving DecidableEq

/-- Errors surfaced by the modelled program. flagErrHelp stands for Go
flag.ErrHelp; flagParse for every other error returned by
flag.FlagSet.Parse; eof for an error from bufio ReadString at
end-of-input; selectorExitError for an exec.ExitError from the fzf
process; the rest mirror the fmt.Errorf calls in the source. -/
inductive GoError where
  | flagErrHelp
  | flagParse (msg : String)
  | eof
  | unknownCatID (id : String)
  | selectorExitError
  | requiredField (fieldName : String)
  | other (msg : String)
deriving DecidableEq

/-- Models the interactive loop of Renamer.promptField (renamer.go):
print the prompt, read one line, trim it; re-prompt on an empty trimmed
value for a required field, re-prompt on a trimmed value containing the
underscore delimiter, otherwise accept the trimmed value with interior
whitespace runs collapsed to single hyphens. Stdin is the queue of
remaining lines; the result pairs the transcript of events with either
the error from the read or the accepted value and the unconsumed
lines. -/
def promptFieldLoop (fieldName : String) (req : Requirement) :
    List String → List OutEvent × Except GoError (String × List String)
  | [] => ([OutEvent.prompt fieldName], Except.error GoError.eof)
  | line :: rest =>
    let trimmed := trimSpace line
    if req = Requirement.required ∧ trimmed = "" then
      let r := promptFieldLoop fieldName req rest
      (OutEvent.prompt fieldName :: OutEvent.errRequired fieldName :: r.1, r.2)
    else if trimmed.data.contains '_' then
      let r := promptFieldLoop fieldName req rest
      (OutEvent.prompt fieldName :: OutEvent.errDelimiter :: r.1, r.2)
    else
      ([OutEvent.prompt fieldName], Except.ok (joinWith ("-") (goFields trimmed), rest))

/-- Models Renamer.promptField (renamer.go): when an environment
override name is given and that variable is set and non-empty, return
the raw value immediately with no prompting and no input consumed;
otherwise run the interactive loop. The environment is a total function
from names to values, with "" meaning unset, as in Go os.Getenv. -/
def promptField (env : String → String) (fieldName : String) (req : Requirement)
    (envOverrideVar : String) (inputs : List String) :
    List OutEvent × Except GoError (String × List String) :=
  if envOverrideVar ≠ "" ∧ env envOverrideVar ≠ "" then
    ([], Except.ok (env envOverrideVar, inputs))
  else
    promptFieldLoop fieldName req inputs

/-- Models Renamer.promptFields (renamer.go): print the chosen CatID,
then collect FXName, CreatorID, SourceID (required, the last two with
environment overrides) and UserData (optional, with an override),
failing if a required value comes back empty. -/
def promptFields (env : String → String) (catID : String) (inputs : List String) :
    List OutEvent × Except GoError (Filename × List String) :=
  let out0 : List OutEvent := [OutEvent.catIDLine catID]
  match promptField env ("FXName") Requirement.required ("") inputs with
  | (o1, Except.error e) => (out0 ++ o1, Except.error e)
  | (o1, Except.ok (fxName, in1)) =>
    if fxName = "" then (out0 ++ o1, Except.error (GoError.requiredField ("FXName"))) else
    match promptField env ("CreatorID") Requirement.required ("UCS_CREATOR_ID") in1 with
    | (o2, Except.error e) => (out0 ++ o1 ++ o2, Except.error e)
    | (o2, Except.ok (creatorID, in2)) =>
      if creatorID = "" then
        (out0 ++ o1 ++ o2, Except.error (GoError.requiredField ("CreatorID"))) else
      match promptField env ("SourceID") Requirement.required ("UCS_SOURCE_ID") in2 with
      | (o3, Except.error e) => (out0 ++ o1 ++ o2 ++ o3, Except.error e)
      | (o3, Except.ok (sourceID, in3)) =>
        if sourceID = "" then
          (out0 ++ o1 ++ o2 ++ o3, Except.error (GoError.requiredField ("SourceID"))) else
        match promptField env ("UserData") Requirement.optional ("UCS_USER_DATA") in3 with
        | (o4, Except.error e) => (out0 ++ o1 ++ o2 ++ o3 ++ o4, Except.error e)
        | (o4, Except.ok (userData, in4)) =>
          (out0 ++ o1 ++ o2 ++ o3 ++ o4,
            Except.ok (Filename.mk catID fxName creatorID sourceID userData, in4))

/-- Outcome of running the external fzf selector process (cmd.Run in
Renamer.buildFilename): a nil error, an exec.ExitError, or any other
error; each case carries the content of the stdout buffer. -/
inductive SelectorResult where
  | ok (stdout : String)
  | exitError (stdout : String)
  | otherError (stdout : String)
deriving DecidableEq

/-- Models validateCatID (renamer.go) over an already-loaded catalog:
ok when some catalog entry has the given CatID, the unknown-CatID error
otherwise. -/
def validateCatID (categories : List Category) (catID : String) : Except GoError Unit :=
  if categories.any fun c => c.CatID == catID then Except.ok ()
  else Except.error (GoError.unknownCatID catID)

/-- Models Renamer.buildFilename (renamer.go). With UCS_CAT_ID set and
non-empty: validate it against the catalog and on success prompt the
remaining fields. Otherwise run the selector: an exec.ExitError is
returned as the error; any other run error is swallowed by the source
(the errors.As branch only returns ExitErrors), after which the stdout
buffer is trimmed, split on spaces, and the first piece, with trailing
colons removed, becomes the CatID handed to promptFields. -/
def buildFilename (env : String → String) (categories : List Category)
    (selector : SelectorResult) (inputs : List String) :
    List OutEvent × Except GoError (Filename × List String) :=
  let catIDEnv := env ("UCS_CAT_ID")
  if catIDEnv ≠ "" then
    match validateCatID categories catIDEnv with
    | Except.error e => ([], Except.error e)
    | Except.ok _ => promptFields env catIDEnv inputs
  else
    match selector with
    | SelectorResult.exitError _ => ([], Except.error GoError.selectorExitError)
    | SelectorResult.ok out | SelectorResult.otherError out =>
      let choice := trimSpace out
      let catID := trimRightColon ((splitOnChar ' ' choice).headD (""))
      promptFields env catID inputs

/-- Whether Renamer.confirm runs the rename closure or returns nil
without renaming. -/
inductive ConfirmOutcome where
  | runRename
  | skip
deriving DecidableEq

/-- Models the switch in Renamer.confirm (renamer.go): lowercase the
scanned answer; "y" and "yes" run the rename, "n", "no" and every other
answer return success without renaming. -/
def confirmAnswer (answer : String) : ConfirmOutcome :=
  let lower := goToLower answer
  if lower = "y" ∨ lower = "yes" then ConfirmOutcome.runRename
  else if lower = "n" ∨ lower = "no" then ConfirmOutcome.skip
  else ConfirmOutcome.skip

/-- Models Renamer.confirm (renamer.go): print the question once, scan
one whitespace-delimited token (a failed scan leaves the empty string,
as with fmt.Fscanf), and decide; every switch branch returns, so the
enclosing for loop runs exactly one iteration and the question is never
printed twice. -/
def confirmRun (question : String) (tokens : List String) : List OutEvent × ConfirmOutcome :=
  ([OutEvent.confirmPrompt question], confirmAnswer (tokens.headD ("")))

/-- Models Go strconv.ParseBool, used for a boolean flag given as
-y=value. -/
def goParseBool (s : String) : Option Bool :=
  if s = "1" ∨ s = "t" ∨ s = "T" ∨ s = "true" ∨ s = "TRUE" ∨ s = "True" then some true
  else if s = "0" ∨ s = "f" ∨ s = "F" ∨ s = "false" ∨ s = "FALSE" ∨ s = "False" then
    some false
  else none

/-- Models flag.FlagSet.Parse (Go standard flag package, mode
ContinueOnError) for the flag set of main.go, whose only flag is the
boolean -y. A non-flag argument or a lone "-" stops parsing and the
remaining arguments become the positional arguments; "--" is consumed
and stops parsing; -h and -help (not defined as flags) return
flag.ErrHelp; any other unknown flag or a bad boolean value returns an
ordinary parse error, which is not flag.ErrHelp. -/
def flagParse : Bool → List String → Except GoError (Bool × List String)
  | fc, [] => Except.ok (fc, [])
  | fc, s :: rest =>
    if s.length < 2 ∨ s.data.headD ' ' ≠ '-' then Except.ok (fc, s :: rest)
    else
      let afterDash := s.data.tail
      if afterDash = ['-'] then Except.ok (fc, rest)
      else
        let nameChars := if afterDash.headD ' ' = '-' then afterDash.tail else afterDash
        if nameChars = [] ∨ nameChars.headD ' ' = '-' ∨ nameChars.headD ' ' = '=' then
          Except.error (GoError.flagParse ("bad flag syntax: " ++ s))
        else
          let name := String.mk (nameChars.takeWhile fun c => c != '=')
          let hasValue := nameChars.contains '='
          let value := String.mk ((nameChars.dropWhile fun c => c != '=').tail)
          if name = "y" then
            if hasValue then
              match goParseBool value with
              | some b => flagParse b rest
              | none =>
                Except.error (GoError.flagParse
                  ("invalid boolean value " ++ value ++ " for -y"))
            else flagParse true rest
          else if name = "help" ∨ name = "h" then Except.error GoError.flagErrHelp
          else Except.error (GoError.flagParse ("flag provided but not defined: -" ++ name))

/-- Models run (main.go). When stdout is not a terminal the program
prints the catalog listing (its outcome is the listingResult
parameter). Otherwise it parses the flags, prints usage and returns nil
when the positional argument is missing, and otherwise hands the
filename and the -y flag to the renamer; the fzf lookup and
Renamer.Run are folded into the renamerRun parameter, whose errors are
ordinary errors. -/
def run (interactive : Bool) (args : List String)
    (renamerRun : String → Bool → Except GoError Unit)
    (listingResult : Except GoError Unit) : Except GoError Unit :=
  if interactive = false then listingResult
  else
    match flagParse false args with
    | Except.error e => Except.error e
    | Except.ok (forceConfirm, positional) =>
      let filename := positional.headD ("")
      if filename = "" then Except.ok ()
      else renamerRun filename forceConfirm

/-- Models errors.Is(err, flag.ErrHelp) for the modelled error kinds:
only the flag.ErrHelp sentinel matches. -/
def errorsIsErrHelp : GoError → Bool
  | GoError.flagErrHelp => true
  | _ => false

/-- Models main (main.go): exit 0 on a nil error, exit 2 when the error
is flag.ErrHelp, and print the error and exit 1 otherwise. -/
def mainExitCode (result : Except GoError Unit) : Nat :=
  match result with
  | Except.ok _ => 0
  | Except.error e => if errorsIsErrHelp e then 2 else 1

/-- Helper: every accepted value of the prompt loop is the hyphen-join
of the whitespace fields of the trimmed text of some line whose trimmed
text does not contain an underscore. -/
theorem promptFieldLoop_ok_source (fieldName : String) (req : Requirement) :
    ∀ (inputs : List String) (v : String) (rest : List String),
      (promptFieldLoop fieldName req inputs).2 = Except.ok (v, rest) →
      ∃ line : String, (trimSpace line).data.contains '_' = false ∧
        v = joinWith ("-") (goFields (trimSpace line)) := by
  intro inputs
  induction inputs with
  | nil => intro v rest h; simp [promptFieldLoop] at h
  | cons line rest0 ih =>
    intro v rest h
    by_cases h1 : req = Requirement.required ∧ trimSpace line = ""
    · simp only [promptFieldLoop, if_pos h1] at h
      exact ih v rest h
    · by_cases h2 : (trimSpace line).data.contains '_' = true
      · simp only [promptFieldLoop, if_neg h1, if_pos h2] at h
        exact ih v rest h
      · simp only [promptFieldLoop, if_neg h1, if_neg h2] at h
        simp at h
        exact ⟨line, by simpa using h2, h.1.symm⟩

/-- Helper: every character of every field produced by fieldsAux is a
non-whitespace character, provided the accumulator holds only
non-whitespace characters. -/
theorem fieldsAux_no_space (l : List Char) :
    ∀ cur, (∀ c ∈ cur, goIsSpace c = false) →
      ∀ piece ∈ fieldsAux cur l, ∀ c ∈ piece, goIsSpace c = false := by
  induction l with
  | nil =>
    intro cur hcur piece hp c hc
    by_cases he : cur.isEmpty
    · simp [fieldsAux, he] at hp
    · simp [fieldsAux, he] at hp
      subst hp
      exact hcur c (List.mem_reverse.mp hc)
  | cons c0 rest ih =>
    intro cur hcur piece hp c hc
    by_cases hsp : goIsSpace c0 = true
    · by_cases he : cur.isEmpty
      · simp only [fieldsAux, if_pos hsp, if_pos he] at hp
        exact ih [] (by simp) piece hp c hc
      · simp only [fieldsAux, if_pos hsp, if_neg he] at hp
        rcases List.mem_cons.mp hp with hpc | hpm
        · subst hpc
          exact hcur c (List.mem_reverse.mp hc)
        · exact ih [] (by simp) piece hpm c hc
    · simp only [fieldsAux, if_neg hsp] at hp
      refine ih (c0 :: cur) ?_ piece hp c hc
      intro d hd
      rcases List.mem_cons.mp hd with hdc | hdm
      · subst hdc; simpa using hsp
      · exact hcur d hdm

/-- Helper: a character of a separator-join comes from the separator or
from one of the joined strings. -/
theorem joinWith_mem_chars (sep : String) (l : List String) (c : Char) :
    c ∈ (joinWith sep l).data → c ∈ sep.data ∨ ∃ s ∈ l, c ∈ s.data := by
  induction l with
  | nil => intro h; simp [joinWith] at h
  | cons x xs ih =>
    cases xs with
    | nil => intro h; exact Or.inr ⟨x, by simp, by simpa [joinWith] using h⟩
    | cons y t =>
      intro h
      have h2 : c ∈ x.data ∨ c ∈ sep.data ∨ c ∈ (joinWith sep (y :: t)).data := by
        have := h
        rw [show joinWith sep (x :: y :: t) = x ++ sep ++ joinWith sep (y :: t) from rfl] at this
        simp only [String.data_append, List.mem_append] at this
        tauto
      rcases h2 with hx | hs | hr
      · exact Or.inr ⟨x, by simp, hx⟩
      · exact Or.inl hs
      · rcases ih hr with hs | ⟨s, hsl, hcs⟩
        · exact Or.inl hs
        · exact Or.inr ⟨s, List.mem_cons_of_mem x hsl, hcs⟩

/-- Helper: the normalized field value contains no whitespace
character: fields are whitespace-free runs and the separator is a
hyphen. -/
theorem normalized_no_space (t : String) :
    ∀ c ∈ (joinWith ("-") (goFields t)).data, goIsSpace c = false := by
  intro c hc
  rcases joinWith_mem_chars ("-") (goFields t) c hc with h | ⟨s, hs, hcs⟩
  · have : c = '-' := by simpa using h
    subst this
    decide
  · rcases List.mem_map.mp hs with ⟨piece, hpiece, hmk⟩
    subst hmk
    exact fieldsAux_no_space t.data [] (by simp) piece hpiece c (by simpa using hcs)

/-- C3: a line whose trimmed value contains the underscore delimiter is
rejected: the loop emits the reserved-character error line and
re-prompts on the remaining input, for required and optional fields
alike; and every accepted value arises from a line whose trimmed value
does not contain the delimiter. -/
theorem prompt_rejects_delimiter_c3 :
    (∀ (fieldName : String) (req : Requirement) (line : String) (rest : List String),
      '_' ∈ (trimSpace line).data →
      promptFieldLoop fieldName req (line :: rest) =
        (OutEvent.prompt fieldName :: OutEvent.errDelimiter ::
            (promptFieldLoop fieldName req rest).1,
          (promptFieldLoop fieldName req rest).2)) ∧
    (∀ (fieldName : String) (req : Requirement) (inputs : List String)
        (v : String) (rest : List String),
      (promptFieldLoop fieldName req inputs).2 = Except.ok (v, rest) →
      ∃ line : String, '_' ∉ (trimSpace line).data ∧
        v = joinWith ("-") (goFields (trimSpace line))) := by
  constructor
  · intro fieldName req line rest hmem
    have hne : ¬ (req = Requirement.required ∧ trimSpace line = "") := by
      rintro ⟨-, he⟩
      rw [he] at hmem
      simp at hmem
    have hc : (trimSpace line).data.contains '_' = true := by
      simpa using hmem
    simp only [promptFieldLoop, if_neg hne, if_pos hc]
  · intro fieldName req inputs v rest h
    rcases promptFieldLoop_ok_source fieldName req inputs v rest h with ⟨line, hline, hv⟩
    exact ⟨line, by simpa using hline, hv⟩

/-- Witness for C3 at a concrete rejected line: with input lines
"a_b" then "ok", the loop rejects the first line with the delimiter
error and continues on the remaining input. -/
theorem prompt_rejects_delimiter_c3_witness :
    promptFieldLoop ("FXName") Requirement.required ["a_b", "ok"] =
      (OutEvent.prompt ("FXName") :: OutEvent.errDelimiter ::
          (promptFieldLoop ("FXName") Requirement.required ["ok"]).1,
        (promptFieldLoop ("FXName") Requirement.required ["ok"]).2) :=
  prompt_rejects_delimiter_c3.1 ("FXName") Requirement.required ("a_b") ["ok"] (by decide)

/-- C4: every accepted interactive value is the trimmed input with each
interior whitespace run collapsed to a single hyphen: it is the
hyphen-join of the whitespace-separated fields of the trimmed line, and
it contains no whitespace character; in particular the input line
containing the text a, three spaces, b, two spaces, c is accepted as
the value a-b-c. -/
theorem prompt_normalizes_whitespace_c4 :
    (∀ (fieldName : String) (req : Requirement) (inputs : List String)
        (v : String) (rest : List String),
      (promptFieldLoop fieldName req inputs).2 = Except.ok (v, rest) →
      (∃ line : String, v = joinWith ("-") (goFields (trimSpace line))) ∧
        ∀ c ∈ v.data, goIsSpace c = false) ∧
    promptFieldLoop ("FXName") Requirement.required ["a   b  c"] =
      ([OutEvent.prompt ("FXName")], Except.ok ("a-b-c", [])) := by
  constructor
  · intro fieldName req inputs v rest h
    rcases promptFieldLoop_ok_source fieldName req inputs v rest h with ⟨line, -, hv⟩
    subst hv
    exact ⟨⟨line, rfl⟩, normalized_no_space (trimSpace line)⟩
  · rfl

/-- Witness for C4: instantiates the acceptance characterization at the
concrete run accepting "a-b-c". -/
theorem prompt_normalizes_whitespace_c4_witness :
    (∃ line : String, ("a-b-c" : String) = joinWith ("-") (goFields (trimSpace line))) ∧
      ∀ c ∈ ("a-b-c" : String).data, goIsSpace c = false :=
  prompt_normalizes_whitespace_c4.1 ("FXName") Requirement.required ["a   b  c"]
    ("a-b-c") [] (by rfl)

/-- C5: when a field has an environment-override name and that variable
is set and non-empty, promptField returns the raw environment value
immediately: the transcript is empty (no prompt), the input queue is
untouched (nothing read), and the value is returned verbatim with no
trimming, no delimiter check and no whitespace normalization. -/
theorem env_override_raw_c5 (env : String → String) (fieldName : String)
    (req : Requirement) (envOverrideVar : String) (inputs : List String)
    (h1 : envOverrideVar ≠ "") (h2 : env envOverrideVar ≠ "") :
    promptField env fieldName req envOverrideVar inputs =
      ([], Except.ok (env envOverrideVar, inputs)) := by
  simp [promptField, h1, h2]

/-- Witness for C5 at an environment whose UCS_CREATOR_ID value
contains an underscore and interior whitespace: the value is returned
raw, unmodified. -/
theorem env_override_raw_c5_witness :
    promptField (fun v => if v = "UCS_CREATOR_ID" then " a_b  c " else "")
      ("CreatorID") Requirement.required ("UCS_CREATOR_ID") [] =
      ([], Except.ok ((" a_b  c "), [])) :=
  env_override_raw_c5 (fun v => if v = "UCS_CREATOR_ID" then " a_b  c " else "")
    ("CreatorID") Requirement.required ("UCS_CREATOR_ID") [] (by decide) (by decide)

/-- C9: for an optional field prompted interactively, a line consisting
entirely of whitespace is accepted immediately as the empty string (no
re-prompt: the transcript holds the single prompt and the remaining
input is returned), and a Filename whose UserData is empty renders with
no UserData segment and no trailing delimiter. -/
theorem userdata_blank_c9 (fieldName line : String) (rest : List String)
    (h : trimSpace line = "") :
    promptFieldLoop fieldName Requirement.optional (line :: rest) =
      ([OutEvent.prompt fieldName], Except.ok (("", rest))) ∧
    ∀ c fx cr src ext,
      (Filename.mk c fx cr src ("")).Render ext =
        c ++ "_" ++ fx ++ "_" ++ cr ++ "_" ++ src ++ ext := by
  constructor
  · have h1 : ¬ (Requirement.optional = Requirement.required ∧ trimSpace line = "") := by
      rintro ⟨hbad, -⟩
      exact absurd hbad (by decide)
    have h2 : ¬ ((trimSpace line).data.contains '_' = true) := by
      rw [h]
      decide
    simp only [promptFieldLoop, if_neg h1, if_neg h2, h]
    rfl
  · intro c fx cr src ext
    rw [render_eq]
    simp [String.append_assoc]

/-- Witness for C9 at the whitespace-only input line of three
spaces. -/
theorem userdata_blank_c9_witness :
    promptFieldLoop ("UserData") Requirement.optional ["   "] =
      ([OutEvent.prompt ("UserData")], Except.ok (("", []))) :=
  (userdata_blank_c9 ("UserData") ("   ") [] (by decide)).1

/-- C2 counterexample: the category id is obtained interactively, the
selector run fails without producing any output (a non-ExitError run
error, which the source swallows: its errors.As branch returns only
ExitErrors), and buildFilename proceeds through all field prompts and
succeeds with an empty CatID, instead of failing loudly. -/
theorem empty_choice_proceeds_c2_cex :
    (buildFilename (fun _ => "") [] (SelectorResult.otherError (""))
        ["fx", "cr", "sr", "ud"]).2 =
      Except.ok ((Filename.mk ("") ("fx") ("cr") ("sr") ("ud"), [])) := by
  rfl

/-- C2 amended: when the selector exits with an exec.ExitError (as on
user cancellation) buildFilename fails before any prompting, with an
empty transcript; but when the selector run fails with a non-exit error
and produces no output, the error is swallowed and the program proceeds
to prompt the remaining fields with an empty CatID. -/
theorem selector_empty_choice_c2_amended (env : String → String)
    (cats : List Category) (inputs : List String) (sout : String)
    (h : env ("UCS_CAT_ID") = "") :
    buildFilename env cats (SelectorResult.exitError sout) inputs =
      ([], Except.error GoError.selectorExitError) ∧
    buildFilename env cats (SelectorResult.otherError ("")) inputs =
      promptFields env ("") inputs := by
  constructor
  · simp only [buildFilename, h]
    rfl
  · simp only [buildFilename, h]
    rfl

/-- Witness for C2 amended: a cancelled selector (exit error) fails
loudly before any prompting. -/
theorem selector_empty_choice_c2_amended_witness :
    buildFilename (fun _ => "") [] (SelectorResult.exitError ("")) [] =
      ([], Except.error GoError.selectorExitError) :=
  (selector_empty_choice_c2_amended (fun _ => "") [] [] ("") (by rfl)).1

/-- C6: with the UCS_CAT_ID environment override set and non-empty,
buildFilename validates it against the catalog: if no entry matches it
fails with the unknown-CatID error, with an empty transcript (before
any field prompt) and without consulting the selector (the selector
argument is arbitrary and unused); if an entry matches, that id is used
directly and the interactive selection never runs. -/
theorem cat_id_override_validation_c6 (env : String → String) (cats : List Category)
    (sel : SelectorResult) (inputs : List String)
    (h : env ("UCS_CAT_ID") ≠ "") :
    ((cats.any fun c => c.CatID == env ("UCS_CAT_ID")) = false →
      buildFilename env cats sel inputs =
        ([], Except.error (GoError.unknownCatID (env ("UCS_CAT_ID"))))) ∧
    ((cats.any fun c => c.CatID == env ("UCS_CAT_ID")) = true →
      buildFilename env cats sel inputs =
        promptFields env (env ("UCS_CAT_ID")) inputs) := by
  constructor <;> intro hm <;> simp [buildFilename, validateCatID, h, hm]

/-- Witness for C6: the override value XXX matches no catalog entry, so
the run fails with the unknown-CatID error before any prompting,
whatever the selector would have answered. -/
theorem cat_id_override_validation_c6_witness :
    buildFilename (fun v => if v = "UCS_CAT_ID" then "XXX" else "")
      [Category.mk ("AMBIENCE") ("PARK") ("AMBPark") ("AMB") ("park")]
      (SelectorResult.ok ("AMBPark: AMBIENCE PARK")) [] =
      ([], Except.error (GoError.unknownCatID ("XXX"))) :=
  (cat_id_override_validation_c6 (fun v => if v = "UCS_CAT_ID" then "XXX" else "")
    [Category.mk ("AMBIENCE") ("PARK") ("AMBPark") ("AMB") ("park")]
    (SelectorResult.ok ("AMBPark: AMBIENCE PARK")) [] (by decide)).1 (by decide)

/-- C7 counterexample: an undefined flag is a flag parse error, yet the
process exits with status 1, not 2: main sends only flag.ErrHelp to
exit code 2, and the parse error for -z is not flag.ErrHelp. -/
theorem exit_code_c7_cex :
    flagParse false ["-z", "f.wav"] =
      Except.error (GoError.flagParse ("flag provided but not defined: -z")) ∧
    mainExitCode (run true ["-z", "f.wav"] (fun _ _ => Except.ok ()) (Except.ok ())) = 1 := by
  constructor <;> rfl

/-- C7 amended: in interactive mode, a missing positional argument
prints usage and exits 0; a help request (flag.ErrHelp, from -h or
-help) exits 2; every other flag parse error exits 1, like any other
failure; and any non-help error from the rename path exits 1. -/
theorem exit_code_c7_amended (args : List String)
    (renamerRun : String → Bool → Except GoError Unit)
    (listingResult : Except GoError Unit) :
    (∀ fc pos, flagParse false args = Except.ok ((fc, pos)) → pos.headD ("") = "" →
      mainExitCode (run true args renamerRun listingResult) = 0) ∧
    (flagParse false args = Except.error GoError.flagErrHelp →
      mainExitCode (run true args renamerRun listingResult) = 2) ∧
    (∀ msg, flagParse false args = Except.error (GoError.flagParse msg) →
      mainExitCode (run true args renamerRun listingResult) = 1) ∧
    (∀ fc pos e, flagParse false args = Except.ok ((fc, pos)) → pos.headD ("") ≠ "" →
      renamerRun (pos.headD ("")) fc = Except.error e → errorsIsErrHelp e = false →
      mainExitCode (run true args renamerRun listingResult) = 1) := by
  refine ⟨?_, ?_, ?_, ?_⟩
  · intro fc pos hp hhead
    simp only [List.headD_eq_head?_getD] at hhead
    simp [run, hp, hhead, mainExitCode]
  · intro hp
    simp [run, hp, mainExitCode, errorsIsErrHelp]
  · intro msg hp
    simp [run, hp, mainExitCode, errorsIsErrHelp]
  · intro fc pos e hp hhead hr he
    simp only [List.headD_eq_head?_getD] at hhead hr
    simp [run, hp, hhead, hr, mainExitCode, he]

/-- Witness for C7 amended: a help request exits with status 2. -/
theorem exit_code_c7_amended_witness :
    mainExitCode (run true ["-h"] (fun _ _ => Except.ok ()) (Except.ok ())) = 2 :=
  (exit_code_c7_amended ["-h"] (fun _ _ => Except.ok ()) (Except.ok ())).2.1 (by rfl)

/-- C8 counterexample: a catalog file whose second row has a field
count different from the first row does not have that row silently
skipped: the CSV read itself fails with ErrFieldCount (default
FieldsPerRecord of encoding/csv), so the load fails. -/
theorem csv_field_count_c8_cex :
    ucsCategoriesOfLines
        ["AMBIENCE,PARK,AMBPark,AMB,,park indoor outdoor", "AMBIENCE,PARK"] =
      Except.error CsvError.fieldCount := by
  rfl

/-- Helper: the 6-field filterMap is the map of the builder over the
6-field filter. -/
theorem filterMap_guard_eq (records : List (List String)) :
    (records.filterMap fun r => if r.length = 6 then some (mkCategory r) else none) =
      (records.filter fun r => decide (r.length = 6)).map mkCategory := by
  induction records with
  | nil => rfl
  | cons r t ih =>
    by_cases h : r.length = 6 <;>
      simp [List.filterMap_cons, List.filter_cons, h, ih]

/-- C8 amended: at the record level, Categories keeps exactly the
records with 6 fields (one entry per such record, built from columns
0, 1, 2, 3 and 5) and skips the rest; but at the file level a row whose
field count differs from the first row's makes the CSV read fail with
ErrFieldCount instead of being skipped; the single-row file of the
scenario yields exactly one entry with CatID AMBPark. -/
theorem categories_c8_amended :
    (∀ records : List (List String),
      (categoriesFromRecords records).length =
        ((records.filter fun r => decide (r.length = 6)).length) ∧
      ∀ cat ∈ categoriesFromRecords records,
        ∃ r ∈ records, r.length = 6 ∧ cat = mkCategory r) ∧
    ucsCategoriesOfLines ["AMBIENCE,PARK,AMBPark,AMB,,park indoor outdoor"] =
      Except.ok [Category.mk ("AMBIENCE") ("PARK") ("AMBPark") ("AMB")
        ("park indoor outdoor")] := by
  constructor
  · intro records
    constructor
    · simp [categoriesFromRecords, filterMap_guard_eq]
    · intro cat hcat
      have hmem : cat ∈ records.filterMap
          fun r => if r.length = 6 then some (mkCategory r) else none := by
        simpa [categoriesFromRecords] using hcat
      rcases List.mem_filterMap.mp hmem with ⟨r, hr, hsome⟩
      by_cases h : r.length = 6
      · refine ⟨r, hr, h, ?_⟩
        simp [h] at hsome
        exact hsome.symm
      · simp [h] at hsome
  · have hcsv : csvReadAll ["AMBIENCE,PARK,AMBPark,AMB,,park indoor outdoor"] =
        Except.ok [["AMBIENCE", "PARK", "AMBPark", "AMB", "", "park indoor outdoor"]] := rfl
    have hfm : ([["AMBIENCE", "PARK", "AMBPark", "AMB", "", "park indoor outdoor"]].filterMap
        fun r => if r.length = 6 then some (mkCategory r) else none) =
        [Category.mk ("AMBIENCE") ("PARK") ("AMBPark") ("AMB") ("park indoor outdoor")] := rfl
    simp only [ucsCategoriesOfLines, hcsv, categoriesFromRecords, hfm,
      List.mergeSort_singleton]

/-- Witness for C8 amended: membership instantiated at a concrete
record list holding one 6-field row and one 2-field row. -/
theorem categories_c8_amended_witness :
    ∃ r ∈ [["AMBIENCE", "PARK", "AMBPark", "AMB", "", "park indoor outdoor"],
        ["SHORT", "ROW"]], r.length = 6 ∧
      (Category.mk ("AMBIENCE") ("PARK") ("AMBPark") ("AMB") ("park indoor outdoor")) =
        mkCategory r :=
  (categories_c8_amended.1 [["AMBIENCE", "PARK", "AMBPark", "AMB", "",
    "park indoor outdoor"], ["SHORT", "ROW"]]).2
    (Category.mk ("AMBIENCE") ("PARK") ("AMBPark") ("AMB") ("park indoor outdoor"))
    (by
      have hfm : ([["AMBIENCE", "PARK", "AMBPark", "AMB", "", "park indoor outdoor"],
          ["SHORT", "ROW"]].filterMap
          fun r => if r.length = 6 then some (mkCategory r) else none) =
          [Category.mk ("AMBIENCE") ("PARK") ("AMBPark") ("AMB")
            ("park indoor outdoor")] := rfl
      simp only [categoriesFromRecords, hfm, List.mergeSort_singleton, List.mem_singleton])

/-- C10: the confirmation answer is matched case-insensitively: each of
y, Y, yes, YES, Yes runs the rename; every answer whose lowercase form
is neither y nor yes (so every case variant of n and no, and anything
else) returns success without renaming; and the confirmation question
is printed exactly once, whatever the input tokens. -/
theorem confirm_case_insensitive_c10 :
    (confirmAnswer ("y") = ConfirmOutcome.runRename ∧
      confirmAnswer ("Y") = ConfirmOutcome.runRename ∧
      confirmAnswer ("yes") = ConfirmOutcome.runRename ∧
      confirmAnswer ("YES") = ConfirmOutcome.runRename ∧
      confirmAnswer ("Yes") = ConfirmOutcome.runRename) ∧
    (∀ answer : String, goToLower answer ≠ "y" → goToLower answer ≠ "yes" →
      confirmAnswer answer = ConfirmOutcome.skip) ∧
    (∀ (question : String) (tokens : List String),
      (confirmRun question tokens).1 = [OutEvent.confirmPrompt question]) := by
  refine ⟨by decide, ?_, ?_⟩
  · intro answer h1 h2
    simp [confirmAnswer, h1, h2]
  · intro question tokens
    rfl

/-- Witness for C10: an unrecognized answer returns success without
renaming. -/
theorem confirm_case_insensitive_c10_witness :
    confirmAnswer ("q") = ConfirmOutcome.skip :=
  confirm_case_insensitive_c10.2.1 ("q") (by decide) (by decide)
